import Mathlib

/-!
Verification of the KYC document-upload front end
(`src/src/app/page.tsx`, two component variants, and `src/unnamed/part_000`).

The component logic is shallowly embedded: JavaScript strings are `String`
(lists of characters), JS numbers appearing in integer positions are `Nat`,
the built-in `JSON.parse` is modelled by an executable recursive-descent
parser of the JSON grammar, and the IEEE-754 binary64 arithmetic used by
the progress formula is modelled exactly by round-to-nearest-even on
rationals.  Fetch calls and timers are modelled by explicit outcome
parameters and state records.
-/

namespace KycApp

/-! ## JavaScript string primitives -/

/-- Characters removed by JavaScript `String.prototype.trim`
(ECMAScript WhiteSpace and LineTerminator code points). -/
def isJsTrimChar (c : Char) : Bool :=
  c == ' ' || c == '\t' || c == '\n' || c == '\r' ||
  c == '\x0b' || c == '\x0c' || c.toNat == 0xa0 || c.toNat == 0x1680 ||
  (0x2000 ≤ c.toNat && c.toNat ≤ 0x200a) || c.toNat == 0x2028 ||
  c.toNat == 0x2029 || c.toNat == 0x202f || c.toNat == 0x205f ||
  c.toNat == 0x3000 || c.toNat == 0xfeff

/-- JavaScript `s.trim()` on the character list. -/
def jsTrimList (cs : List Char) : List Char :=
  ((cs.dropWhile isJsTrimChar).reverse.dropWhile isJsTrimChar).reverse

/-- JavaScript `s.trim()`. -/
def jsTrim (s : String) : String := String.mk (jsTrimList s.data)

/-- JavaScript `s.replace(/\n/g, "")`: removes every newline character. -/
def removeNewlines (s : String) : String :=
  String.mk (s.data.filter (fun c => c ≠ '\n'))

/-- JavaScript `(s.match(/c/g) || []).length`: occurrences of character `c`. -/
def countChar (s : String) (c : Char) : Nat := s.data.count c

/-- ASCII fragment of JavaScript `s.toLowerCase()` (sufficient for the
`".pdf"` suffix test: only ASCII letters can lowercase onto `".pdf"`). -/
def jsToLowerChar (c : Char) : Char :=
  if 'A' ≤ c && c ≤ 'Z' then Char.ofNat (c.toNat + 32) else c

/-- JavaScript `s.toLowerCase()` (ASCII fragment). -/
def jsToLower (s : String) : String := String.mk (s.data.map jsToLowerChar)

/-- JavaScript `s.endsWith(t)`. -/
def strEndsWith (s t : String) : Bool := t.data.isSuffixOf s.data

/-! ## A model of ECMAScript `JSON.parse`

JSON values; a number is recorded by its source lexeme (no claim compares
numeric values across distinct lexemes), object fields are kept in source
order and `getField` below returns the last duplicate, as JS assignment
order dictates. -/

inductive Json where
  | null : Json
  | bool (b : Bool) : Json
  | num (lexeme : String) : Json
  | str (s : String) : Json
  | arr (elems : List Json) : Json
  | obj (fields : List (String × Json)) : Json

/-- JSON insignificant whitespace (space, tab, newline, carriage return). -/
def isJsonWs (c : Char) : Bool :=
  c == ' ' || c == '\t' || c == '\n' || c == '\r'

/-- Drop leading JSON whitespace. -/
def skipWs : List Char → List Char
  | [] => []
  | c :: cs => if isJsonWs c then skipWs cs else c :: cs

/-- ASCII decimal digit. -/
def isDigit (c : Char) : Bool := '0' ≤ c && c ≤ '9'

/-- Value of one hexadecimal digit, by code point: digits 0-9 are
code points 48-57, a-f are 97-102, A-F are 65-70. -/
def hexVal (c : Char) : Option Nat :=
  let n := c.toNat
  if 48 ≤ n && n ≤ 57 then some (n - 48)
  else if 97 ≤ n && n ≤ 102 then some (n - 97 + 10)
  else if 65 ≤ n && n ≤ 70 then some (n - 65 + 10)
  else none

/-- Four hex digits of a `\u` escape. -/
def parseHex4 : List Char → Option (Nat × List Char)
  | a :: b :: c :: d :: rest =>
    match hexVal a, hexVal b, hexVal c, hexVal d with
    | some x, some y, some z, some w => some ((((x * 16 + y) * 16 + z) * 16 + w), rest)
    | _, _, _, _ => none
  | _ => none

/-- Body of a JSON string literal, after the opening quote: JSON escapes,
and unescaped control characters below U+0020 are rejected (as
`JSON.parse` does).  A `\u` code unit is mapped through `Char.ofNat`. -/
def parseStringBody : Nat → List Char → List Char → Option (String × List Char)
  | 0, _, _ => none
  | _, _, [] => none
  | fuel + 1, acc, c :: cs =>
    if c == '"' then some (String.mk acc.reverse, cs)
    else if c == '\\' then
      match cs with
      | [] => none
      | e :: cs2 =>
        if e == '"' then parseStringBody fuel ('"' :: acc) cs2
        else if e == '\\' then parseStringBody fuel ('\\' :: acc) cs2
        else if e == '/' then parseStringBody fuel ('/' :: acc) cs2
        else if e == 'b' then parseStringBody fuel ('\x08' :: acc) cs2
        else if e == 'f' then parseStringBody fuel ('\x0c' :: acc) cs2
        else if e == 'n' then parseStringBody fuel ('\n' :: acc) cs2
        else if e == 'r' then parseStringBody fuel ('\r' :: acc) cs2
        else if e == 't' then parseStringBody fuel ('\t' :: acc) cs2
        else if e == 'u' then
          match parseHex4 cs2 with
          | some (n, cs3) => parseStringBody fuel (Char.ofNat n :: acc) cs3
          | none => none
        else none
    else if c.toNat < 0x20 then none
    else parseStringBody fuel (c :: acc) cs

/-- Integer part of a JSON number: `0`, or a nonzero digit then digits. -/
def parseIntPart : List Char → Option (List Char × List Char)
  | [] => none
  | c :: cs =>
    if c == '0' then some ([c], cs)
    else if isDigit c then
      let sp := cs.span isDigit
      some (c :: sp.1, sp.2)
    else none

/-- Optional fraction part: a dot must be followed by at least one digit. -/
def parseFracPart : List Char → Option (List Char × List Char)
  | [] => some ([], [])
  | c :: cs =>
    if c == '.' then
      match cs.span isDigit with
      | ([], _) => none
      | (ds, rest) => some ('.' :: ds, rest)
    else some ([], c :: cs)

/-- Optional exponent part: `e`/`E`, optional sign, at least one digit. -/
def parseExpPart : List Char → Option (List Char × List Char)
  | [] => some ([], [])
  | c :: cs =>
    if c == 'e' || c == 'E' then
      match cs with
      | s :: cs2 =>
        if s == '+' || s == '-' then
          match cs2.span isDigit with
          | ([], _) => none
          | (ds, rest) => some (c :: s :: ds, rest)
        else
          match cs.span isDigit with
          | ([], _) => none
          | (ds, rest) => some (c :: ds, rest)
      | [] => none
    else some ([], c :: cs)

/-- A JSON number lexeme: optional minus, integer, fraction, exponent. -/
def parseNumber (cs : List Char) : Option (List Char × List Char) :=
  let signed : Bool × List Char :=
    match cs with
    | '-' :: cs2 => (true, cs2)
    | _ => (false, cs)
  match parseIntPart signed.2 with
  | none => none
  | some (ip, r1) =>
    match parseFracPart r1 with
    | none => none
    | some (fp, r2) =>
      match parseExpPart r2 with
      | none => none
      | some (ep, r3) =>
        some ((if signed.1 then ['-'] else []) ++ ip ++ fp ++ ep, r3)

mutual

/-- One JSON value (leading whitespace allowed), by recursive descent. -/
def parseValue : Nat → List Char → Option (Json × List Char)
  | 0, _ => none
  | fuel + 1, cs =>
    match skipWs cs with
    | [] => none
    | c :: rest =>
      if c == '{' then parseObjStart fuel rest
      else if c == '[' then parseArrStart fuel rest
      else if c == '"' then
        match parseStringBody (rest.length + 1) [] rest with
        | some (s, r) => some (Json.str s, r)
        | none => none
      else if c == 't' then
        match rest with
        | 'r' :: 'u' :: 'e' :: r => some (Json.bool true, r)
        | _ => none
      else if c == 'f' then
        match rest with
        | 'a' :: 'l' :: 's' :: 'e' :: r => some (Json.bool false, r)
        | _ => none
      else if c == 'n' then
        match rest with
        | 'u' :: 'l' :: 'l' :: r => some (Json.null, r)
        | _ => none
      else
        match parseNumber (c :: rest) with
        | some (lex, r) => some (Json.num (String.mk lex), r)
        | none => none

/-- After `{`: empty object or the member list. -/
def parseObjStart : Nat → List Char → Option (Json × List Char)
  | 0, _ => none
  | fuel + 1, cs =>
    match skipWs cs with
    | '}' :: rest => some (Json.obj [], rest)
    | cs2 => parseMembers fuel [] cs2

/-- Members of an object: `"key" : value`, separated by commas. -/
def parseMembers : Nat → List (String × Json) → List Char → Option (Json × List Char)
  | 0, _, _ => none
  | fuel + 1, acc, cs =>
    match skipWs cs with
    | '"' :: rest =>
      match parseStringBody (rest.length + 1) [] rest with
      | none => none
      | some (key, r1) =>
        match skipWs r1 with
        | ':' :: r2 =>
          match parseValue fuel r2 with
          | none => none
          | some (v, r3) =>
            match skipWs r3 with
            | ',' :: r4 => parseMembers fuel (acc ++ [(key, v)]) r4
            | '}' :: r4 => some (Json.obj (acc ++ [(key, v)]), r4)
            | _ => none
        | _ => none
    | _ => none

/-- After `[`: empty array or the element list. -/
def parseArrStart : Nat → List Char → Option (Json × List Char)
  | 0, _ => none
  | fuel + 1, cs =>
    match skipWs cs with
    | ']' :: rest => some (Json.arr [], rest)
    | cs2 => parseElems fuel [] cs2

/-- Elements of an array, separated by commas. -/
def parseElems : Nat → List Json → List Char → Option (Json × List Char)
  | 0, _, _ => none
  | fuel + 1, acc, cs =>
    match parseValue fuel cs with
    | none => none
    | some (v, r1) =>
      match skipWs r1 with
      | ',' :: r2 => parseElems fuel (acc ++ [v]) r2
      | ']' :: r2 => some (Json.arr (acc ++ [v]), r2)
      | _ => none

end

/-- Model of ECMAScript `JSON.parse`: parse a complete JSON text;
`none` models `JSON.parse` throwing a SyntaxError. -/
def jsonParse (s : String) : Option Json :=
  match parseValue (4 * s.data.length + 4) s.data with
  | some (v, rest) => if skipWs rest = [] then some v else none
  | none => none

/-- JavaScript property access `o["key"]` on a parsed value: `none` for a
missing key or a non-object (JS `undefined`); the last duplicate wins. -/
def getField (j : Json) (key : String) : Option Json :=
  match j with
  | Json.obj fields => (fields.reverse.find? (fun kv => kv.1 == key)).map Prod.snd
  | _ => none

/-! ## File Selection Manager

`addFiles` — `page.tsx` lines 64-82 (identical at lines 906-924 and in
`part_000` lines 94-112).  A browser `File` is abstracted to its name and
size; the result carries the new list and the error message set, if any
(the `fileInputRef` reset touches only the DOM input element). -/

structure JsFile where
  name : String
  size : Nat
deriving DecidableEq

/-- The filter-warning message of `addFiles`. -/
def pdfOnlyError : String := "Only PDF files are supported. Some files were filtered out."

/-- `addFiles(newFiles)` acting on the current list `files`. -/
def addFiles (files : List JsFile) (newFiles : List JsFile) :
    List JsFile × Option String :=
  let currentFilenames := files.map (fun f => f.name)
  let uniqueNewFiles := newFiles.filter (fun f => !(currentFilenames.contains f.name))
  let pdfFiles := uniqueNewFiles.filter (fun f => strEndsWith (jsToLower f.name) ".pdf")
  let err : Option String :=
    if pdfFiles.length < uniqueNewFiles.length then some pdfOnlyError else none
  (files ++ pdfFiles, err)

/-- The file list after a sequence of `addFiles` batches. -/
def addFilesRuns (files : List JsFile) (batches : List (List JsFile)) : List JsFile :=
  batches.foldl (fun fs b => (addFiles fs b).1) files

/-! ## Result Ingestion: JSON repair and per-document payloads

`page.tsx` lines 194-207 (identical in `part_000` lines 226-239) and the
second variant at `page.tsx` lines 1042-1064. -/

/-- `jsonString.replace(/\n/g, "").trim()` — `page.tsx` line 196. -/
def cleanedJsonString (s : String) : String := jsTrim (removeNewlines s)

/-- Brace repair — `page.tsx` lines 197-202: count `{` and `}` on the
cleaned string and append the deficit of closing braces. -/
def fixedJsonString (s : String) : String :=
  let c := cleanedJsonString s
  let openBraces := countChar c '{'
  let closeBraces := countChar c '}'
  if openBraces > closeBraces then
    c ++ String.mk (List.replicate (openBraces - closeBraces) '}')
  else c

/-- The parsed-or-fallback data payload for one response string,
`page.tsx` lines 194-207 and `part_000` lines 226-239: when parsing the
repaired string fails, `raw_data` holds the ORIGINAL string
(`parsedData = { raw_data: jsonString }`, line 206).  Total: the
`JSON.parse` failure is caught, never rethrown. -/
def docPayload (s : String) : Json :=
  match jsonParse (fixedJsonString s) with
  | some v => v
  | none => Json.obj [("raw_data", Json.str s)]

/-- Same pipeline in the second variant, `page.tsx` lines 1042-1064: there
the fallback is `parsedData = { raw_data: cleanedJsonString }` (lines
1061-1063), so `raw_data` holds the CLEANED string. -/
def docPayloadCleaned (s : String) : Json :=
  match jsonParse (fixedJsonString s) with
  | some v => v
  | none => Json.obj [("raw_data", Json.str (cleanedJsonString s))]

/-! ## Verification summary of the red-flag variant

`page.tsx` lines 1084-1096.  There each rendered document is
`{ filename, type: "PDF", ...parsedData }`, so `doc.red_flags` is the
`red_flags` property of the parsed payload (the spread keys `filename` and
`type` differ from `red_flags`, and spreading a non-object contributes no
`red_flags` key). -/

structure VerificationSummary where
  identityVerified : Bool
  riskScore : String
  recommendedAction : String
deriving DecidableEq

/-- `Array.isArray(doc.red_flags) && doc.red_flags.length > 0` for one
parsed payload — `page.tsx` line 1086. -/
def docHasRedFlags (payload : Json) : Bool :=
  match getField payload "red_flags" with
  | some (Json.arr l) => decide (l.length > 0)
  | _ => false

/-- `parsedDocuments.some(...)` — `page.tsx` lines 1085-1087. -/
def hasRedFlags (payloads : List Json) : Bool := payloads.any docHasRedFlags

/-- The derived summary — `page.tsx` lines 1089-1096. -/
def verificationSummaryOf (payloads : List Json) : VerificationSummary :=
  let h := hasRedFlags payloads
  { identityVerified := !h
    riskScore := if h then "Medium" else "Low"
    recommendedAction := if h then "Review" else "Approve" }

/-! ## Binary64 model for the upload progress formula

`page.tsx` line 148: `Math.floor(((i + 1) / files.length) * 50)` is
evaluated in IEEE-754 binary64: the division rounds to the nearest double
(ties to even), the multiplication by 50 rounds its exact product, and
`Math.floor` is exact.  We model a positive double as a pair
`(m, e) : Nat × Int` of value `m·2^e`, and rounding of a rational `p/q`
exactly; magnitudes stay far from overflow and underflow here. -/

/-- Round the rational `a / b` to the nearest integer, ties to even. -/
def rne (a b : Nat) : Nat :=
  let q := a / b
  let r := a % b
  if 2 * r < b then q
  else if b < 2 * r then q + 1
  else if q % 2 = 0 then q else q + 1

/-- Fuel-based floor of log2 (kernel-reducible, unlike `Nat.log2`). -/
def log2fuel : Nat → Nat → Nat
  | _, 0 => 0
  | n, fuel + 1 => if 2 ≤ n then log2fuel (n / 2) fuel + 1 else 0

/-- `floor (log2 n)` for `n ≥ 1` (0 at 0). -/
def natLog2 (n : Nat) : Nat := log2fuel n n

/-- Smallest `t` at least the start value with `q ≤ p·2^t` (fuel-bounded). -/
def upShift (p q : Nat) : Nat → Nat → Nat
  | t, 0 => t
  | t, fuel + 1 => if q ≤ p * 2 ^ t then t else upShift p q (t + 1) fuel

/-- `floor (log2 (p / q))` for positive `p, q` as an integer. -/
def ratLog2 (p q : Nat) : Int :=
  if q ≤ p then Int.ofNat (natLog2 (p / q))
  else - Int.ofNat (upShift p q 1 1100)

/-- The binary64 double nearest to `p / q` (ties to even), as `(m, e)`
with value `m·2^e` and `m` the rounded 53-bit significand. -/
def fl64 (p q : Nat) : Nat × Int :=
  if p = 0 then (0, 0) else
  let s := ratLog2 p q
  let m :=
    if s ≤ 52 then rne (p * 2 ^ Int.toNat (52 - s)) q
    else rne p (q * 2 ^ Int.toNat (s - 52))
  (m, s - 52)

/-- `Math.floor` of the double `(m, e)` (value nonnegative here). -/
def floorDouble (d : Nat × Int) : Nat :=
  if 0 ≤ d.2 then d.1 * 2 ^ Int.toNat d.2 else d.1 / 2 ^ Int.toNat (-d.2)

/-- `Math.floor((k / n) * 50)` exactly as JavaScript evaluates it.  The
`n = 0` branch is unreachable: `handleUpload` returns early when
`files.length === 0` (`page.tsx` lines 130-133). -/
def jsProgressFloor (k n : Nat) : Nat :=
  if n = 0 then 0 else
  let d1 := fl64 k n
  let prod := d1.1 * 50
  let d2 :=
    if 0 ≤ d1.2 then fl64 (prod * 2 ^ Int.toNat d1.2) 1
    else fl64 prod (2 ^ Int.toNat (-d1.2))
  floorDouble d2

/-- The exact-rational reading of the same formula:
`floor ((k / n) * 50) = (k * 50) / n` in natural division. -/
def ratProgressFloor (k n : Nat) : Nat := k * 50 / n

/-- The upload loop of `handleUpload` (`page.tsx` lines 144-150), progress
only: starting at loop counter `i` with current progress `p`, run `k`
iterations, each ending with `setProgress(Math.floor(((i+1)/n)*50))`. -/
def uploadLoopProgress (n : Nat) : Nat → Nat → Nat → Nat
  | _, 0, p => p
  | i, k + 1, _ => uploadLoopProgress n (i + 1) k (jsProgressFloor (i + 1) n)

/-- Progress after the first `k` uploads of a run with `n` files
(`setProgress(0)` at line 137, then the loop). -/
def progressAfterUploads (n k : Nat) : Nat := uploadLoopProgress n 0 k 0

/-! ## Upload sequencing trace

`handleUpload`, `page.tsx` lines 141-189 (identical in `part_000` lines
173-215): files are awaited one at a time in array order; a rejected
upload propagates out of the loop to the `catch` (lines 230-239), which
surfaces the error, so `/process_docs` (line 168) is reached only when
every upload succeeded.  `ok i` tells whether the upload of file `i`
succeeds (the environment's behavior). -/

inductive UEvent where
  | start (i : Nat) : UEvent
  | success (i : Nat) : UEvent
  | failure (i : Nat) : UEvent
  | processDocs : UEvent
  | errorSurfaced : UEvent
deriving DecidableEq

/-- The `for` loop from counter `i` with `k` files remaining: events
emitted and whether the loop ran to completion. -/
def uploadRun (ok : Nat → Bool) : Nat → Nat → List UEvent × Bool
  | _, 0 => ([], true)
  | i, k + 1 =>
    if ok i then
      let rest := uploadRun ok (i + 1) k
      (UEvent.start i :: UEvent.success i :: rest.1, rest.2)
    else ([UEvent.start i, UEvent.failure i], false)

/-- The whole `try`/`catch` of `handleUpload` for `n` files: on loop
completion the `/process_docs` request is issued; on a failed upload the
thrown error reaches the `catch`, which surfaces it (`setError`). -/
def handleUploadTrace (ok : Nat → Bool) (n : Nat) : List UEvent :=
  let r := uploadRun ok 0 n
  if r.2 then r.1 ++ [UEvent.processDocs] else r.1 ++ [UEvent.errorSurfaced]

/-! ## Simulated-progress timers

The document-processing step (`page.tsx` lines 156-239) and the KYC step
(`processKYC`, lines 243-304).  The relevant state: the interval timer,
the progress value, the phase flags and the error message.  The fetch and
body read are modelled by an outcome: network rejection, non-ok response,
or ok response. -/

structure TimerState where
  timerActive : Bool
  progress : Nat
  isUploading : Bool
  isProcessing : Bool
  isProcessingKyc : Bool
  error : Option String
deriving DecidableEq

inductive FetchOutcome where
  | netError (message : String) : FetchOutcome
  | httpError (statusText : String) : FetchOutcome
  | ok : FetchOutcome
deriving DecidableEq

/-- One firing of the interval callback of the document-processing step
(`page.tsx` lines 158-166): at 95 or above it clears its own interval and
keeps the value, otherwise it adds 5. -/
def processTick (st : TimerState) : TimerState :=
  if st.progress ≥ 95 then { st with timerActive := false }
  else { st with progress := st.progress + 5 }

/-- Same for the KYC step (`page.tsx` lines 265-273), increment 10. -/
def kycTick (st : TimerState) : TimerState :=
  if st.progress ≥ 95 then { st with timerActive := false }
  else { st with progress := st.progress + 10 }

/-- The document-processing step of `handleUpload` after all uploads
succeed (`page.tsx` lines 152-239): `setInterval` starts the timer (line
158); a fetch rejection (`netError`) or a non-ok response (`httpError`,
thrown at line 182 before the `clearInterval` of line 187) jumps to the
`catch` of lines 230-239, which sets the error and the two flags but
never calls `clearInterval`; on an ok response lines 187-189 clear the
timer, set progress to 100 and end the step. -/
def processDocsStep (st : TimerState) (o : FetchOutcome) : TimerState :=
  let st1 := { st with timerActive := true }
  match o with
  | FetchOutcome.netError m =>
    { st1 with error := some m, isUploading := false, isProcessing := false }
  | FetchOutcome.httpError statusText =>
    { st1 with error := some ("Processing failed: " ++ statusText),
               isUploading := false, isProcessing := false }
  | FetchOutcome.ok =>
    { st1 with timerActive := false, progress := 100, isProcessing := false }

/-- The body of `processKYC` (`page.tsx` lines 254-304): `setInterval` at
line 265; a fetch rejection jumps to the `catch` (lines 294-300) with the
timer still scheduled; otherwise `clearInterval` and `setProgress(100)`
run (lines 284-285) BEFORE the ok test, so a non-ok response throws with
the timer already cleared; the `finally` (line 302) only resets
`isProcessingKyc`. -/
def processKYCStep (st : TimerState) (o : FetchOutcome) : TimerState :=
  let st1 := { st with timerActive := true }
  match o with
  | FetchOutcome.netError m =>
    { st1 with error := some m, isProcessingKyc := false }
  | FetchOutcome.httpError statusText =>
    { st1 with timerActive := false, progress := 100,
               error := some ("KYC Processing failed: " ++ statusText),
               isProcessingKyc := false }
  | FetchOutcome.ok =>
    { st1 with timerActive := false, progress := 100, isProcessingKyc := false }

/-! ## The surfaced error of a non-ok `/process_kyc` response

`page.tsx` lines 287-290: `await kycResponse.json()` re-parses the body;
when the body is valid JSON the thrown message is
`KYC Processing failed: ${errorData.message || kycResponse.statusText}`;
when it is not, `json()` itself rejects and the `catch` surfaces THAT
rejection's message (`err.message`, line 296-298) — the constructed
message never comes to exist.  `syntaxErrMsg` stands for the
environment-supplied SyntaxError message of the failed body read. -/

/-- JavaScript truthiness of `errorData.message` (`undefined` for a
missing field; a JSON number is falsy exactly when its mantissa digits
are all zero). -/
def jsTruthy : Option Json → Bool
  | none => false
  | some Json.null => false
  | some (Json.bool b) => b
  | some (Json.str s) => s ≠ ""
  | some (Json.num lex) =>
    (lex.data.takeWhile (fun c => c ≠ 'e' && c ≠ 'E')).any (fun c => isDigit c && c ≠ '0')
  | some (Json.arr _) => true
  | some (Json.obj _) => true

/-- Template-literal rendering of the truthy `message` value; only the
string case is exercised by the theorems (numbers are rendered by their
lexeme, an approximation of ECMAScript number-to-string noted here). -/
def jsDisplay : Option Json → String
  | some (Json.str s) => s
  | some (Json.num lex) => lex
  | some (Json.bool true) => "true"
  | some (Json.bool false) => "false"
  | some Json.null => "null"
  | some (Json.arr _) => ""
  | some (Json.obj _) => "[object Object]"
  | none => "undefined"

/-- The error message surfaced for a non-ok `/process_kyc` response with
body `body` and status text `statusText`. -/
def kycSurfacedError (syntaxErrMsg : String → String)
    (body statusText : String) : String :=
  match jsonParse body with
  | some errorData =>
    "KYC Processing failed: " ++
      (if jsTruthy (getField errorData "message")
       then jsDisplay (getField errorData "message") else statusText)
  | none => syntaxErrMsg body

/-! ## Component state and `handleReset`

`page.tsx` lines 40-53 declare the state; `handleReset` (lines 314-323,
identical in `part_000` lines 347-356) resets eight of the fields and
leaves the phase flags (`isUploading`, `isProcessing`, `isProcessingKyc`,
`isDragOver`) untouched.  `extractedData` and `kycResult` keep only what
the claims observe. -/

structure ExtractedData where
  documents : List (String × Json)
  verificationSummary : VerificationSummary

structure ComponentState where
  files : List JsFile
  isUploading : Bool
  isProcessing : Bool
  progress : Nat
  extractedData : Option ExtractedData
  kycResult : Option Json
  error : Option String
  isDragOver : Bool
  uploadedFiles : List String
  showJson : List (Nat × Bool)
  isProcessingKyc : Bool
  processingStep : String

/-- The initial values of the `useState` hooks (`page.tsx` lines 41-53). -/
def initialState : ComponentState :=
  { files := []
    isUploading := false
    isProcessing := false
    progress := 0
    extractedData := none
    kycResult := none
    error := none
    isDragOver := false
    uploadedFiles := []
    showJson := []
    isProcessingKyc := false
    processingStep := "upload" }

/-- `handleReset` — `page.tsx` lines 314-323. -/
def handleReset (st : ComponentState) : ComponentState :=
  { st with files := []
            extractedData := none
            kycResult := none
            progress := 0
            error := none
            uploadedFiles := []
            showJson := []
            processingStep := "upload" }

/-- The guard of the idle/selection view — `page.tsx` line 528:
`!isUploading && !isProcessing && !isProcessingKyc && !extractedData && !kycResult`. -/
def idleViewShown (st : ComponentState) : Bool :=
  !st.isUploading && !st.isProcessing && !st.isProcessingKyc &&
    st.extractedData.isNone && st.kycResult.isNone

/-- The timer-relevant state at the moment the document-processing step
begins: uploads done (progress 50), `isProcessing` just set, no timer. -/
def afterUploadsState : TimerState :=
  { timerActive := false
    progress := 50
    isUploading := false
    isProcessing := true
    isProcessingKyc := false
    error := none }

/-- A concrete SyntaxError message a browser's `response.json()` produces
on a non-JSON body (a stand-in for the environment-supplied text). -/
def sampleSyntaxErrMsg : String → String :=
  fun _ => "Unexpected token < in JSON at position 0"

/-- A component state after a full run: `kycResult` set, results shown. -/
def kycDoneState : ComponentState :=
  { files := [{ name := "doc.pdf", size := 100 }]
    isUploading := false
    isProcessing := false
    progress := 100
    extractedData := some { documents := [("doc.pdf", Json.obj [])],
                            verificationSummary :=
                              { identityVerified := true, riskScore := "Low",
                                recommendedAction := "Approve" } }
    kycResult := some (Json.obj [("message", Json.str "KYC check successful")])
    error := none
    isDragOver := false
    uploadedFiles := ["doc.pdf"]
    showJson := [(0, true)]
    isProcessingKyc := false
    processingStep := "kyc" }

/-- A component state while the `/process_kyc` call is in flight:
`processKYC` has set `isProcessingKyc`, `processingStep` and reset the
progress (lines 249-252), the simulated timer has advanced it, and
`kycResult` is still null.  In this state the footer's `!kycResult`
branch (`page.tsx` lines 757-764) still renders the reset button, and it
is enabled (only the Process-KYC button is disabled there). -/
def kycInFlightState : ComponentState :=
  { files := [{ name := "doc.pdf", size := 100 }]
    isUploading := false
    isProcessing := false
    progress := 20
    extractedData := some { documents := [("doc.pdf", Json.obj [])],
                            verificationSummary :=
                              { identityVerified := true, riskScore := "Low",
                                recommendedAction := "Approve" } }
    kycResult := none
    error := none
    isDragOver := false
    uploadedFiles := ["doc.pdf"]
    showJson := []
    isProcessingKyc := true
    processingStep := "kyc" }

/-! ## Helper lemmas -/

lemma count_dropWhile_eq {p : Char → Bool} {c : Char} (h : p c = false) :
    ∀ l : List Char, (l.dropWhile p).count c = l.count c := by
  intro l
  induction l with
  | nil => rfl
  | cons x xs ih =>
    rw [List.dropWhile_cons]
    by_cases hx : p x
    · have hxc : x ≠ c := fun e => by rw [e, h] at hx; exact Bool.false_ne_true hx
      simp [hx, List.count_cons, hxc, ih]
    · simp [hx]

/-- Cleaning (newline removal and trim) does not change the number of
occurrences of a non-whitespace character, in particular of a brace. -/
lemma countChar_cleanedJsonString (s : String) (c : Char)
    (h1 : isJsTrimChar c = false) (h2 : c ≠ '\n') :
    countChar (cleanedJsonString s) c = countChar s c := by
  show (jsTrimList (s.data.filter (fun x => x ≠ '\n'))).count c = s.data.count c
  unfold jsTrimList
  rw [List.count_reverse, count_dropWhile_eq h1, List.count_reverse,
    count_dropWhile_eq h1, List.count_filter]
  simp [h2]

/-! ## C3 -/

/-- C3: for every per-document response string with more `{` than `}`
characters, the repair step appends to the cleaned (newline-stripped,
trimmed) string exactly the deficit of closing braces; and the particular
string `{"a":1` parses, after repair, to the object `{"a":1}`. -/
theorem c3_brace_repair (s : String)
    (h : countChar s '{' > countChar s '}') :
    fixedJsonString s =
      cleanedJsonString s ++
        String.mk (List.replicate (countChar s '{' - countChar s '}') '}') ∧
    jsonParse (fixedJsonString "\x7b\"a\":1") = some (Json.obj [("a", Json.num "1")]) := by
  constructor
  · show (if countChar (cleanedJsonString s) '{' > countChar (cleanedJsonString s) '}'
        then cleanedJsonString s ++
          String.mk (List.replicate
            (countChar (cleanedJsonString s) '{' - countChar (cleanedJsonString s) '}') '}')
        else cleanedJsonString s) = _
    rw [countChar_cleanedJsonString s '{' (by decide) (by decide),
      countChar_cleanedJsonString s '}' (by decide) (by decide), if_pos h]
  · rfl

/-- Witness for C3 at the claim's own example string. -/
theorem c3_brace_repair_witness :
    countChar "\x7b\"a\":1" '{' > countChar "\x7b\"a\":1" '}' ∧
    (fixedJsonString "\x7b\"a\":1" =
      cleanedJsonString "\x7b\"a\":1" ++
        String.mk (List.replicate
          (countChar "\x7b\"a\":1" '{' - countChar "\x7b\"a\":1" '}') '}') ∧
     jsonParse (fixedJsonString "\x7b\"a\":1") = some (Json.obj [("a", Json.num "1")])) :=
  ⟨by decide, c3_brace_repair "\x7b\"a\":1" (by decide)⟩

/-! ## C4 -/

/-- C4 counterexample: for the unrecoverable response string
`"not\njson"` the second variant's payload wraps the CLEANED string
`"notjson"`, not the original string as received from the backend, so the
claim's description of the payload fails on that variant. -/
theorem c4_counterexample :
    jsonParse (fixedJsonString "not\njson") = none ∧
    docPayloadCleaned "not\njson" = Json.obj [("raw_data", Json.str "notjson")] ∧
    docPayloadCleaned "not\njson" ≠ Json.obj [("raw_data", Json.str "not\njson")] := by
  refine ⟨rfl, rfl, ?_⟩
  intro h
  rw [show docPayloadCleaned "not\njson"
      = Json.obj [("raw_data", Json.str "notjson")] from rfl] at h
  have h1 := congrArg
    (fun j => match j with
      | Json.obj [(_, Json.str s)] => s
      | _ => "") h
  simp only at h1
  exact absurd h1 (by decide)

/-- C4 (amended): for every response string that still fails to parse
after brace repair, ingestion does not throw (the payload functions are
total); the payload is `{ raw_data: <original string> }` in the first
`page.tsx` variant and in `part_000`, and `{ raw_data: <cleaned string> }`
(newlines stripped, trimmed) in the second `page.tsx` variant. -/
theorem c4_fallback_payloads (s : String)
    (h : jsonParse (fixedJsonString s) = none) :
    docPayload s = Json.obj [("raw_data", Json.str s)] ∧
    docPayloadCleaned s = Json.obj [("raw_data", Json.str (cleanedJsonString s))] := by
  unfold docPayload docPayloadCleaned
  rw [h]
  exact ⟨rfl, rfl⟩

/-- Witness for C4 (amended) at the string `"not\njson"`. -/
theorem c4_fallback_payloads_witness :
    jsonParse (fixedJsonString "not\njson") = none ∧
    (docPayload "not\njson" = Json.obj [("raw_data", Json.str "not\njson")] ∧
     docPayloadCleaned "not\njson" =
       Json.obj [("raw_data", Json.str (cleanedJsonString "not\njson"))]) :=
  ⟨rfl, c4_fallback_payloads "not\njson" rfl⟩

/-! ## C10 -/

/-- C10: repair-then-parse does not agree with plain `JSON.parse` on all
already-valid inputs: the valid JSON text `{"a":"{"}` (a string value
containing an extra `{`) parses as-is, but brace counting sees a deficit,
appends a `}`, the repaired text no longer parses, and the ingested
payload becomes the `raw_data` fallback instead of the parsed object. -/
theorem c10_repair_breaks_valid_json :
    jsonParse "\x7b\"a\":\"\x7b\"\x7d" = some (Json.obj [("a", Json.str "\x7b")]) ∧
    countChar "\x7b\"a\":\"\x7b\"\x7d" '{' = 2 ∧
    countChar "\x7b\"a\":\"\x7b\"\x7d" '}' = 1 ∧
    fixedJsonString "\x7b\"a\":\"\x7b\"\x7d" = "\x7b\"a\":\"\x7b\"\x7d\x7d" ∧
    jsonParse (fixedJsonString "\x7b\"a\":\"\x7b\"\x7d") = none ∧
    docPayload "\x7b\"a\":\"\x7b\"\x7d" =
      Json.obj [("raw_data", Json.str "\x7b\"a\":\"\x7b\"\x7d")] ∧
    docPayload "\x7b\"a\":\"\x7b\"\x7d" ≠ Json.obj [("a", Json.str "\x7b")] := by
  refine ⟨rfl, by decide, by decide, rfl, rfl, rfl, ?_⟩
  intro h
  rw [show docPayload "\x7b\"a\":\"\x7b\"\x7d"
      = Json.obj [("raw_data", Json.str "\x7b\"a\":\"\x7b\"\x7d")] from rfl] at h
  have h1 := congrArg
    (fun j => match j with
      | Json.obj [(k, _)] => k
      | _ => "") h
  simp only at h1
  exact absurd h1 (by decide)

/-! ## C1 -/

/-- C1 counterexample: one drag-drop batch holding two files that share
the name `a.pdf` — `addFiles` filters the batch only against the CURRENT
list, not against the batch itself, so both enter and the file list holds
two entries with the same filename, not only the first occurrence. -/
theorem c1_counterexample :
    ((addFiles [] [{ name := "a.pdf", size := 1 }, { name := "a.pdf", size := 2 }]).1.map
        JsFile.name) = ["a.pdf", "a.pdf"] ∧
    ¬ ((addFiles [] [{ name := "a.pdf", size := 1 }, { name := "a.pdf", size := 2 }]).1.map
        JsFile.name).Nodup := by
  constructor
  · rfl
  · decide

lemma addFiles_names_nodup {fs b : List JsFile}
    (hfs : (fs.map JsFile.name).Nodup) (hb : (b.map JsFile.name).Nodup) :
    (((addFiles fs b).1).map JsFile.name).Nodup := by
  show ((fs ++ (b.filter _).filter _).map JsFile.name).Nodup
  rw [List.map_append]
  refine List.Nodup.append hfs ?_ ?_
  · exact hb.sublist (((List.filter_sublist _).trans (List.filter_sublist _)).map _)
  · intro a ha hb2
    rw [List.mem_map] at hb2
    obtain ⟨f, hf, rfl⟩ := hb2
    have hf2 := List.mem_of_mem_filter hf
    rw [List.mem_filter] at hf2
    have := hf2.2
    simp only [Bool.not_eq_eq_eq_not, Bool.not_true, List.contains, List.elem_eq_mem,
      decide_eq_false_iff_not] at this
    exact this ha

/-- C1 (amended): across every sequence of add-file batches in which each
single batch has pairwise-distinct filenames (as a picker or a
single-directory drop produces), the candidate list never holds two
entries with the same filename: a file whose name matches an existing
entry is dropped, keeping the earlier occurrence.  (Duplicates WITHIN one
batch are not deduplicated against each other — see the counterexample.) -/
theorem c1_no_duplicate_names (batches : List (List JsFile))
    (h : ∀ b ∈ batches, (b.map JsFile.name).Nodup) :
    ((addFilesRuns [] batches).map JsFile.name).Nodup := by
  suffices H : ∀ (bs : List (List JsFile)) (fs : List JsFile),
      (fs.map JsFile.name).Nodup → (∀ b ∈ bs, (b.map JsFile.name).Nodup) →
      ((addFilesRuns fs bs).map JsFile.name).Nodup by
    exact H batches [] List.nodup_nil h
  intro bs
  induction bs with
  | nil => intro fs hfs _; exact hfs
  | cons b bs ih =>
    intro fs hfs hall
    have h1 : ((addFiles fs b).1.map JsFile.name).Nodup :=
      addFiles_names_nodup hfs (hall b (List.mem_cons_self b bs))
    exact ih _ h1 (fun c hc => hall c (List.mem_cons_of_mem b hc))

/-- Witness for C1 (amended): two batches, the second repeating a name of
the first; the surviving list has pairwise-distinct names. -/
theorem c1_no_duplicate_names_witness :
    (∀ b ∈ [[({ name := "a.pdf", size := 1 } : JsFile)],
            [({ name := "b.pdf", size := 2 } : JsFile), { name := "a.pdf", size := 3 }]],
        (b.map JsFile.name).Nodup) ∧
    ((addFilesRuns []
        [[({ name := "a.pdf", size := 1 } : JsFile)],
         [({ name := "b.pdf", size := 2 } : JsFile), { name := "a.pdf", size := 3 }]]).map
      JsFile.name).Nodup :=
  ⟨by decide, c1_no_duplicate_names _ (by decide)⟩

/-! ## C2 -/

/-- C2 counterexample: with 50 candidate files, after the 29th upload the
code reports `Math.floor((29/50)*50)` evaluated in binary64, which is 28,
while the claimed exact value `floor((29/50)*50)` is 29: the double
`29/50` rounds below `0.58`, and `0.58·50` rounds below `29`. -/
theorem c2_counterexample :
    progressAfterUploads 50 29 = 28 ∧
    ratProgressFloor 29 50 = 29 ∧
    progressAfterUploads 50 29 ≠ ratProgressFloor 29 50 := by
  refine ⟨by decide, by decide, by decide⟩

lemma uploadLoopProgress_eq (n : Nat) :
    ∀ (k i p : Nat), uploadLoopProgress n i (k + 1) p = jsProgressFloor (i + k + 1) n := by
  intro k
  induction k with
  | zero => intro i p; rfl
  | succ k ih =>
    intro i p
    show uploadLoopProgress n (i + 1) (k + 1) (jsProgressFloor (i + 1) n) = _
    rw [ih (i + 1)]
    congr 1
    omega

/-- C2 (amended): after the k-th upload of an n-file run (1 ≤ k ≤ n) the
reported progress equals `Math.floor((k/n)*50)` as JavaScript computes it
in binary64 arithmetic; at 4 files and 2 completed uploads this is 25,
agreeing with the exact floor, but the two readings differ at some inputs
(see the counterexample at k = 29, n = 50). -/
theorem c2_upload_progress (n k : Nat) (h1 : 1 ≤ k) (h2 : k ≤ n) :
    progressAfterUploads n k = jsProgressFloor k n ∧
    progressAfterUploads 4 2 = 25 := by
  constructor
  · obtain ⟨k', rfl⟩ : ∃ k', k = k' + 1 := ⟨k - 1, by omega⟩
    show uploadLoopProgress n 0 (k' + 1) 0 = _
    rw [uploadLoopProgress_eq n k' 0 0, Nat.zero_add]
  · decide

/-- Witness for C2 (amended) at the claim's 4-files-2-uploads instance. -/
theorem c2_upload_progress_witness :
    1 ≤ 2 ∧ 2 ≤ 4 ∧
    (progressAfterUploads 4 2 = jsProgressFloor 2 4 ∧ progressAfterUploads 4 2 = 25) :=
  ⟨by decide, by decide, c2_upload_progress 4 2 (by decide) (by decide)⟩

/-! ## C5 -/

lemma hasRedFlags_iff (payloads : List Json) :
    hasRedFlags payloads = true ↔
      ∃ p ∈ payloads, ∃ l, getField p "red_flags" = some (Json.arr l) ∧ l ≠ [] := by
  unfold hasRedFlags
  rw [List.any_eq_true]
  constructor
  · rintro ⟨p, hp, hd⟩
    refine ⟨p, hp, ?_⟩
    unfold docHasRedFlags at hd
    split at hd
    · next l heq =>
      exact ⟨l, heq, List.ne_nil_of_length_pos (by simpa using hd)⟩
    · cases hd
  · rintro ⟨p, hp, l, hg, hne⟩
    refine ⟨p, hp, ?_⟩
    unfold docHasRedFlags
    rw [hg]
    simpa using List.length_pos.mpr hne

/-- C5: in the red-flag variant, the derived verification summary is
`{identityVerified: false, riskScore: "Medium", recommendedAction:
"Review"}` exactly when some parsed document payload carries a non-empty
`red_flags` array, and `{identityVerified: true, riskScore: "Low",
recommendedAction: "Approve"}` otherwise. -/
theorem c5_red_flag_summary (payloads : List Json) :
    (verificationSummaryOf payloads =
        { identityVerified := false, riskScore := "Medium", recommendedAction := "Review" } ↔
      ∃ p ∈ payloads, ∃ l, getField p "red_flags" = some (Json.arr l) ∧ l ≠ []) ∧
    (verificationSummaryOf payloads =
        { identityVerified := true, riskScore := "Low", recommendedAction := "Approve" } ↔
      ¬ ∃ p ∈ payloads, ∃ l, getField p "red_flags" = some (Json.arr l) ∧ l ≠ []) := by
  have hval : verificationSummaryOf payloads =
      { identityVerified := ! hasRedFlags payloads,
        riskScore := if hasRedFlags payloads then "Medium" else "Low",
        recommendedAction := if hasRedFlags payloads then "Review" else "Approve" } := rfl
  cases h : hasRedFlags payloads with
  | false =>
    have hno : ¬ ∃ p ∈ payloads, ∃ l, getField p "red_flags" = some (Json.arr l) ∧ l ≠ [] :=
      fun hx => Bool.false_ne_true (h ▸ (hasRedFlags_iff payloads).mpr hx)
    rw [hval, h]
    simp only [Bool.not_false, Bool.false_eq_true, if_false]
    refine ⟨⟨fun heq => absurd heq (by decide), fun hx => absurd hx hno⟩,
      ⟨fun _ => hno, fun _ => trivial⟩⟩
  | true =>
    have hyes := (hasRedFlags_iff payloads).mp h
    rw [hval, h]
    simp only [Bool.not_true, if_true]
    refine ⟨⟨fun _ => hyes, fun _ => trivial⟩,
      ⟨fun heq => absurd heq (by decide), fun hn => absurd hyes hn⟩⟩

/-- Witness for C5: one payload with a non-empty red-flag array flips the
summary to Medium/Review. -/
theorem c5_red_flag_summary_witness :
    verificationSummaryOf [Json.obj [("red_flags", Json.arr [Json.str "mismatch"])]] =
      { identityVerified := false, riskScore := "Medium", recommendedAction := "Review" } :=
  (c5_red_flag_summary _).1.mpr
    ⟨Json.obj [("red_flags", Json.arr [Json.str "mismatch"])],
      List.mem_singleton.mpr rfl, [Json.str "mismatch"], rfl, List.cons_ne_nil _ _⟩

/-! ## C6 -/

lemma uploadRun_no_terminal (ok : Nat → Bool) :
    ∀ k i, UEvent.processDocs ∉ (uploadRun ok i k).1 ∧
      UEvent.errorSurfaced ∉ (uploadRun ok i k).1 := by
  intro k
  induction k with
  | zero => intro i; exact ⟨List.not_mem_nil _, List.not_mem_nil _⟩
  | succ k ih =>
    intro i
    by_cases h : ok i
    · have hr := ih (i + 1)
      have hunf : (uploadRun ok i (k + 1)).1 =
          UEvent.start i :: UEvent.success i :: (uploadRun ok (i + 1) k).1 := by
        simp [uploadRun, h]
      rw [hunf]
      constructor
      · intro hm
        rcases List.mem_cons.mp hm with hc | hm2
        · cases hc
        rcases List.mem_cons.mp hm2 with hc | hm3
        · cases hc
        exact hr.1 hm3
      · intro hm
        rcases List.mem_cons.mp hm with hc | hm2
        · cases hc
        rcases List.mem_cons.mp hm2 with hc | hm3
        · cases hc
        exact hr.2 hm3
    · have hunf : (uploadRun ok i (k + 1)).1 = [UEvent.start i, UEvent.failure i] := by
        simp [uploadRun, h]
      rw [hunf]
      constructor
      · intro hm
        rcases List.mem_cons.mp hm with hc | hm2
        · cases hc
        rcases List.mem_cons.mp hm2 with hc | hm3
        · cases hc
        exact List.not_mem_nil _ hm3
      · intro hm
        rcases List.mem_cons.mp hm with hc | hm2
        · cases hc
        rcases List.mem_cons.mp hm2 with hc | hm3
        · cases hc
        exact List.not_mem_nil _ hm3

lemma uploadRun_snd_iff (ok : Nat → Bool) :
    ∀ k i, (uploadRun ok i k).2 = true ↔ ∀ j, j < k → ok (i + j) = true := by
  intro k
  induction k with
  | zero =>
    intro i
    constructor
    · intro _ j hj; omega
    · intro _; rfl
  | succ k ih =>
    intro i
    by_cases h : ok i
    · have hunf : (uploadRun ok i (k + 1)).2 = (uploadRun ok (i + 1) k).2 := by
        simp [uploadRun, h]
      rw [hunf, ih (i + 1)]
      constructor
      · intro hall j hj
        cases j with
        | zero => simpa using h
        | succ j' =>
          have := hall j' (by omega)
          rw [show i + (j' + 1) = i + 1 + j' by omega]
          exact this
      · intro hall j hj
        have := hall (j + 1) (by omega)
        rw [show i + 1 + j = i + (j + 1) by omega]
        exact this
    · have hunf : (uploadRun ok i (k + 1)).2 = false := by
        simp [uploadRun, h]
      rw [hunf]
      constructor
      · intro hc; cases hc
      · intro hall
        have := hall 0 (by omega)
        rw [Nat.add_zero] at this
        exact absurd this h

lemma uploadRun_order (ok : Nat → Bool) :
    ∀ k i0 m, i0 ≤ m → UEvent.start (m + 1) ∈ (uploadRun ok i0 k).1 →
      [UEvent.success m, UEvent.start (m + 1)].Sublist (uploadRun ok i0 k).1 := by
  intro k
  induction k with
  | zero => intro i0 m _ hm; exact absurd hm (List.not_mem_nil _)
  | succ k ih =>
    intro i0 m him hm
    by_cases h : ok i0
    · have hunf : (uploadRun ok i0 (k + 1)).1 =
          UEvent.start i0 :: UEvent.success i0 :: (uploadRun ok (i0 + 1) k).1 := by
        simp [uploadRun, h]
      rw [hunf] at hm ⊢
      rcases List.mem_cons.mp hm with h1 | hm2
      · exfalso; injection h1 with he; omega
      rcases List.mem_cons.mp hm2 with h2 | hm3
      · cases h2
      by_cases hcase : m = i0
      · subst hcase
        exact List.Sublist.cons _ (List.Sublist.cons₂ _ (List.singleton_sublist.mpr hm3))
      · have := ih (i0 + 1) m (by omega) hm3
        exact List.Sublist.cons _ (List.Sublist.cons _ this)
    · have hunf : (uploadRun ok i0 (k + 1)).1 = [UEvent.start i0, UEvent.failure i0] := by
        simp [uploadRun, h]
      rw [hunf] at hm
      exfalso
      rcases List.mem_cons.mp hm with h1 | hm2
      · injection h1 with he; omega
      rcases List.mem_cons.mp hm2 with h2 | hm3
      · cases h2
      · exact List.not_mem_nil _ hm3

/-- C6: uploads proceed one at a time in array order — the success of
upload i precedes the start of upload i+1 in every trace; the
`/process_docs` request appears in the trace exactly when every upload
succeeded; and when some upload fails the run surfaces an error and
`/process_docs` is never requested. -/
theorem c6_upload_sequencing (ok : Nat → Bool) (n : Nat) :
    (UEvent.processDocs ∈ handleUploadTrace ok n ↔ ∀ i, i < n → ok i = true) ∧
    (∀ i, UEvent.start (i + 1) ∈ handleUploadTrace ok n →
      [UEvent.success i, UEvent.start (i + 1)].Sublist (handleUploadTrace ok n)) ∧
    ((∃ i, i < n ∧ ok i = false) →
      UEvent.processDocs ∉ handleUploadTrace ok n ∧
      UEvent.errorSurfaced ∈ handleUploadTrace ok n) := by
  have hno := uploadRun_no_terminal ok n 0
  have hiff := uploadRun_snd_iff ok n 0
  have hall_iff : ((uploadRun ok 0 n).2 = true) ↔ (∀ i, i < n → ok i = true) := by
    rw [hiff]
    constructor
    · intro hall i hi; have := hall i hi; rwa [Nat.zero_add] at this
    · intro hall j hj; rw [Nat.zero_add]; exact hall j hj
  by_cases hr : (uploadRun ok 0 n).2 = true
  · have htr : handleUploadTrace ok n = (uploadRun ok 0 n).1 ++ [UEvent.processDocs] := by
      simp [handleUploadTrace, hr]
    refine ⟨?_, ?_, ?_⟩
    · rw [htr]
      constructor
      · intro _; exact hall_iff.mp hr
      · intro _; exact List.mem_append_right _ (List.mem_singleton.mpr rfl)
    · intro i hmem
      rw [htr] at hmem ⊢
      rcases List.mem_append.mp hmem with hm | hm
      · exact (uploadRun_order ok n 0 i (Nat.zero_le i) hm).trans
          (List.sublist_append_left _ _)
      · exact absurd (List.mem_singleton.mp hm) (by intro hc; cases hc)
    · rintro ⟨i, hi, hfalse⟩
      exact absurd (hall_iff.mp hr i hi) (by rw [hfalse]; exact fun hc => Bool.false_ne_true hc)
  · have hr2 : (uploadRun ok 0 n).2 = false := by
      revert hr; cases (uploadRun ok 0 n).2 <;> simp
    have htr : handleUploadTrace ok n = (uploadRun ok 0 n).1 ++ [UEvent.errorSurfaced] := by
      simp [handleUploadTrace, hr2]
    have hnopd : UEvent.processDocs ∉ handleUploadTrace ok n := by
      rw [htr]
      intro hm
      rcases List.mem_append.mp hm with hm2 | hm2
      · exact hno.1 hm2
      · exact absurd (List.mem_singleton.mp hm2) (by intro hc; cases hc)
    refine ⟨?_, ?_, ?_⟩
    · constructor
      · intro hm; exact absurd hm hnopd
      · intro hall; exact absurd (hall_iff.mpr hall) hr
    · intro i hmem
      rw [htr] at hmem ⊢
      rcases List.mem_append.mp hmem with hm | hm
      · exact (uploadRun_order ok n 0 i (Nat.zero_le i) hm).trans
          (List.sublist_append_left _ _)
      · exact absurd (List.mem_singleton.mp hm) (by intro hc; cases hc)
    · intro _
      exact ⟨hnopd, htr ▸ List.mem_append_right _ (List.mem_singleton.mpr rfl)⟩

/-- Witness for C6: with two always-succeeding uploads the trace reaches
`/process_docs`. -/
theorem c6_upload_sequencing_witness :
    UEvent.processDocs ∈ handleUploadTrace (fun _ => true) 2 :=
  (c6_upload_sequencing (fun _ => true) 2).1.mpr (fun _ _ => rfl)

/-! ## C7 -/

/-- C7 counterexample: when the `/process_docs` response has a non-ok
status, the thrown error reaches the `catch` before the `clearInterval`
of line 187 ever runs, and the `catch` (lines 230-239) does not clear the
interval either — after the step ends (error surfaced, flags down) the
timer is still scheduled, refuting "cleared on every error path". -/
theorem c7_counterexample :
    (processDocsStep afterUploadsState
        (FetchOutcome.httpError "Internal Server Error")).timerActive = true ∧
    (processDocsStep afterUploadsState
        (FetchOutcome.httpError "Internal Server Error")).error =
      some "Processing failed: Internal Server Error" ∧
    (processDocsStep afterUploadsState
        (FetchOutcome.httpError "Internal Server Error")).isProcessing = false := by
  decide

lemma processTick_eventually_clears (st : TimerState) :
    ∃ k, (processTick^[k] st).timerActive = false := by
  suffices H : ∀ d (st : TimerState), 95 - st.progress ≤ d →
      ∃ k, (processTick^[k] st).timerActive = false by
    exact H 95 st (by omega)
  intro d
  induction d with
  | zero =>
    intro st h0
    refine ⟨1, ?_⟩
    have h95 : st.progress ≥ 95 := by omega
    simp [processTick, h95]
  | succ d ih =>
    intro st hd
    by_cases h : st.progress ≥ 95
    · exact ⟨1, by simp [processTick, h]⟩
    · have step : processTick st = { st with progress := st.progress + 5 } := by
        simp [processTick, h]
      obtain ⟨k, hk⟩ := ih { st with progress := st.progress + 5 } (by simp; omega)
      exact ⟨k + 1, by rw [Function.iterate_succ_apply, step]; exact hk⟩

lemma kycTick_eventually_clears (st : TimerState) :
    ∃ k, (kycTick^[k] st).timerActive = false := by
  suffices H : ∀ d (st : TimerState), 95 - st.progress ≤ d →
      ∃ k, (kycTick^[k] st).timerActive = false by
    exact H 95 st (by omega)
  intro d
  induction d with
  | zero =>
    intro st h0
    refine ⟨1, ?_⟩
    have h95 : st.progress ≥ 95 := by omega
    simp [kycTick, h95]
  | succ d ih =>
    intro st hd
    by_cases h : st.progress ≥ 95
    · exact ⟨1, by simp [kycTick, h]⟩
    · have step : kycTick st = { st with progress := st.progress + 10 } := by
        simp [kycTick, h]
      obtain ⟨k, hk⟩ := ih { st with progress := st.progress + 10 } (by simp; omega)
      exact ⟨k + 1, by rw [Function.iterate_succ_apply, step]; exact hk⟩

/-- C7 (amended): the simulated-progress timer of each step is cleared
when a successful response arrives, after which progress is set to 100
(in the KYC step the clearing even precedes the status check, so its
HTTP-error path clears too); but on a network failure in either step, and
on an HTTP-error response in the document-processing step, the
surrounding exception handling does NOT clear the timer — it stays
scheduled until its own callback self-clears upon seeing progress at the
95 ceiling. -/
theorem c7_timer_clearing (st : TimerState) :
    ((processDocsStep st FetchOutcome.ok).timerActive = false ∧
     (processDocsStep st FetchOutcome.ok).progress = 100) ∧
    (∀ m, (processDocsStep st (FetchOutcome.netError m)).timerActive = true) ∧
    (∀ x, (processDocsStep st (FetchOutcome.httpError x)).timerActive = true) ∧
    ((processKYCStep st FetchOutcome.ok).timerActive = false ∧
     (processKYCStep st FetchOutcome.ok).progress = 100) ∧
    (∀ x, (processKYCStep st (FetchOutcome.httpError x)).timerActive = false ∧
          (processKYCStep st (FetchOutcome.httpError x)).progress = 100) ∧
    (∀ m, (processKYCStep st (FetchOutcome.netError m)).timerActive = true) ∧
    (∃ k, (processTick^[k] st).timerActive = false) ∧
    (∃ k, (kycTick^[k] st).timerActive = false) := by
  refine ⟨⟨rfl, rfl⟩, fun m => rfl, fun x => rfl, ⟨rfl, rfl⟩,
    fun x => ⟨rfl, rfl⟩, fun m => rfl,
    processTick_eventually_clears st, kycTick_eventually_clears st⟩

/-- Witness for C7 (amended) at the concrete post-upload state. -/
theorem c7_timer_clearing_witness :
    (processDocsStep afterUploadsState FetchOutcome.ok).timerActive = false ∧
    (processDocsStep afterUploadsState FetchOutcome.ok).progress = 100 :=
  (c7_timer_clearing afterUploadsState).1

/-! ## C8 -/

/-- C8 counterexample: a non-ok `/process_kyc` response whose body is not
JSON — `kycResponse.json()` rejects, the `catch` surfaces the
SyntaxError's own message, and the status text `Bad Request` never
appears: the fallback claimed by the spec does not happen. -/
theorem c8_counterexample :
    jsonParse "<html>Server Error</html>" = none ∧
    kycSurfacedError sampleSyntaxErrMsg "<html>Server Error</html>" "Bad Request" =
      "Unexpected token < in JSON at position 0" ∧
    kycSurfacedError sampleSyntaxErrMsg "<html>Server Error</html>" "Bad Request" ≠
      "KYC Processing failed: Bad Request" := by
  refine ⟨rfl, rfl, by decide⟩

/-- C8 (amended): for a non-ok `/process_kyc` response, the surfaced
message is `KYC Processing failed: <message>` when the body parses as
JSON with a non-empty string `message` field; it falls back to
`KYC Processing failed: <statusText>` when the body parses as JSON but
the field is missing or empty; and when the body is NOT readable as JSON
the surfaced message is the body-read failure's own message, not the
status text. -/
theorem c8_error_message (f : String → String) (body statusText : String) :
    (∀ j, jsonParse body = some j →
      ∀ m, getField j "message" = some (Json.str m) → m ≠ "" →
        kycSurfacedError f body statusText = "KYC Processing failed: " ++ m) ∧
    (∀ j, jsonParse body = some j → getField j "message" = none →
        kycSurfacedError f body statusText = "KYC Processing failed: " ++ statusText) ∧
    (∀ j, jsonParse body = some j → getField j "message" = some (Json.str "") →
        kycSurfacedError f body statusText = "KYC Processing failed: " ++ statusText) ∧
    (jsonParse body = none → kycSurfacedError f body statusText = f body) := by
  refine ⟨?_, ?_, ?_, ?_⟩
  · intro j hj m hm hne
    simp [kycSurfacedError, hj, hm, jsTruthy, jsDisplay, hne]
  · intro j hj hm
    simp [kycSurfacedError, hj, hm, jsTruthy]
  · intro j hj hm
    simp [kycSurfacedError, hj, hm, jsTruthy]
  · intro h
    simp [kycSurfacedError, h]

/-- Witness for C8 (amended): a JSON error body with a message field. -/
theorem c8_error_message_witness :
    jsonParse "\x7b\"message\":\"boom\"\x7d" = some (Json.obj [("message", Json.str "boom")]) ∧
    kycSurfacedError sampleSyntaxErrMsg "\x7b\"message\":\"boom\"\x7d" "Bad Request" =
      "KYC Processing failed: boom" :=
  ⟨rfl, (c8_error_message sampleSyntaxErrMsg "\x7b\"message\":\"boom\"\x7d" "Bad Request").1
    (Json.obj [("message", Json.str "boom")]) rfl "boom" rfl (by decide)⟩

/-! ## C9 -/

/-- C9 counterexample: reset triggered during an in-flight `/process_kyc`
call — the footer's `!kycResult` branch renders the reset button enabled
while `isProcessingKyc` is true, `handleReset` does not touch that flag,
so afterwards the idle/selection guard of line 528 is still false (the
processing view remains): reset does NOT return the component to the
idle phase from every state, although the fields are cleared. -/
theorem c9_counterexample :
    kycInFlightState.isProcessingKyc = true ∧
    idleViewShown (handleReset kycInFlightState) = false ∧
    (handleReset kycInFlightState).isProcessingKyc = true ∧
    (handleReset kycInFlightState).files = [] :=
  ⟨rfl, rfl, rfl, rfl⟩

/-- C9 (amended): triggering reset from any state — including one where
`kycResult` is set — empties the file list, nulls `extractedData` and
`kycResult`, zeroes the progress, clears the error, empties the
uploaded-filenames list, clears every raw-JSON toggle flag and returns
the processing-step tag to its initial `"upload"` value; the busy flags
are left untouched, so the component shows the idle/selection phase
exactly when `isUploading`, `isProcessing` and `isProcessingKyc` are
false (as when reset is triggered from the extracted- or KYC-results
views), and not when reset is clicked during an in-flight KYC call. -/
theorem c9_reset_clears_state (st : ComponentState) :
    (handleReset st).files = [] ∧
    (handleReset st).extractedData = none ∧
    (handleReset st).kycResult = none ∧
    (handleReset st).progress = 0 ∧
    (handleReset st).error = none ∧
    (handleReset st).uploadedFiles = [] ∧
    (handleReset st).showJson = [] ∧
    (handleReset st).processingStep = "upload" ∧
    idleViewShown (handleReset st) =
      (!st.isUploading && !st.isProcessing && !st.isProcessingKyc) := by
  refine ⟨rfl, rfl, rfl, rfl, rfl, rfl, rfl, rfl, ?_⟩
  simp [idleViewShown, handleReset]

/-- Witness for C9 (amended) at a completed-run state with `kycResult`
set, where the busy flags are false and reset lands in the idle phase. -/
theorem c9_reset_clears_state_witness :
    idleViewShown (handleReset kycDoneState) = true ∧
    (handleReset kycDoneState).kycResult = none :=
  ⟨((c9_reset_clears_state kycDoneState).2.2.2.2.2.2.2.2).trans rfl,
   (c9_reset_clears_state kycDoneState).2.2.1⟩

end KycApp
